import Mathlib

/-!
Verification of the Kadence CSV bulk-booking CLI
(src/kadence-booking-cli/index.js, the OAuth/Space-Type variant, which the
frozen claims cite by line number).

The development shallowly embeds the JavaScript source:
  * JSON-ish runtime values are the inductive `Js`, with JS truthiness,
    property access, string conversion and the `||` / `&&` value operators.
  * The HTTP client is an oracle `Env` mapping each request the CLI can make
    (a `Call`) to a response body or an error message; fallible functions
    return `Except String _` paired with the ordered list of calls issued
    (their network trace).
  * Timezone conversion (the moment-timezone dependency) is modelled by
    proleptic-Gregorian epoch arithmetic plus the IANA daylight-saving rule
    for the one named zone the spec exercises, America/New_York
    (US rule, 2007 onward: second Sunday of March to first Sunday of
    November); every other zone name is treated as UTC.
Pure helpers (string normalisation, pattern tests, payload shapes, the
failure-log line format, the concurrency floor) are translated directly.
The worker pool and the token cache are given small-step interleaving
models driven by explicit schedules, since their properties are about
concurrent executions.
-/

/-- A JSON-like runtime value, as handled by the CLI: JSON data plus the
JavaScript `undefined`. Numbers are integers (ids, counts, expiry seconds). -/
inductive Js where
  | null
  | undefined
  | bool (b : Bool)
  | num (n : Int)
  | str (s : String)
  | arr (xs : List Js)
  | obj (fields : List (String × Js))

/-- JavaScript truthiness: null, undefined, false, 0 and the empty string are
falsy; arrays and objects (including `[]` and `\x7b\x7d`) are truthy. -/
def truthy : Js → Bool
  | .null => false
  | .undefined => false
  | .bool b => b
  | .num n => n != 0
  | .str s => s != ""
  | .arr _ => true
  | .obj _ => true

/-- Array.isArray. -/
def Js.isArr : Js → Bool
  | .arr _ => true
  | _ => false

/-- Whitespace for the JavaScript trim (the characters the inputs here can
contain). -/
def isWsChar (c : Char) : Bool :=
  c = ' ' || c = '\t' || c = '\n' || c = '\r' || c = '\x0b' || c = '\x0c'

/-- JavaScript String.prototype.trim, structurally on the character list. -/
def jsTrim (s : String) : String :=
  String.mk (((s.data.dropWhile isWsChar).reverse.dropWhile isWsChar).reverse)

/-- JavaScript String.prototype.toLowerCase on the character list. -/
def jsToLower (s : String) : String :=
  String.mk (s.data.map Char.toLower)

/-- Split on a one-character separator, as String.prototype.split does
(keeping empty pieces). -/
def splitCharAux (sep : Char) : List Char → List Char → List (List Char)
  | [], acc => [acc.reverse]
  | c :: rest, acc =>
    if c = sep then acc.reverse :: splitCharAux sep rest []
    else splitCharAux sep rest (c :: acc)

/-- String.prototype.split with a one-character separator. -/
def splitChar (s : String) (sep : Char) : List String :=
  (splitCharAux sep s.data []).map String.mk

/-- Property access `value[key]`: a missing field, or access on a non-object,
yields `undefined` (no exception), as in JavaScript for the fields the CLI
reads. -/
def getField : Js → String → Js
  | .obj fs, k =>
    match fs.find? (fun p => p.1 == k) with
    | some p => p.2
    | none => .undefined
  | _, _ => .undefined

/-- The JavaScript value operator `a || b`: `a` when truthy, else `b`. -/
def jsOr (a b : Js) : Js := if truthy a then a else b

/-- The JavaScript value operator `a && b`: `b` when `a` is truthy, else `a`. -/
def jsAnd (a b : Js) : Js := if truthy a then b else a

/-- JavaScript String() conversion of a scalar value. -/
def jsToStringFlat : Js → String
  | .null => "null"
  | .undefined => "undefined"
  | .bool true => "true"
  | .bool false => "false"
  | .num n => toString n
  | .str s => s
  | .arr _ => ""
  | .obj _ => "[object Object]"

/-- JavaScript String() conversion for the values the CLI interpolates into
templates and error messages: scalars as usual; arrays join their elements
with commas, null and undefined elements becoming empty (one level deep —
the ids, zone names and messages the pipeline stringifies are never nested
arrays). -/
def jsToString : Js → String
  | .arr xs =>
    String.intercalate ","
      (xs.map (fun e => match e with | .null => "" | .undefined => "" | x => jsToStringFlat x))
  | v => jsToStringFlat v

/-- normalizeString (index.js): `String(value || FOO).trim().toLowerCase()`
with FOO the empty string. -/
def normalizeString (value : Js) : String :=
  jsToLower (jsTrim (if truthy value then jsToString value else ""))

/-- toHydraMembers (index.js): tolerate a plain array, a hydra:member
collection, an items collection, and return `[]` for anything else. A truthy
`hydra:member` or `items` field is returned as-is, whatever its shape. -/
def toHydraMembers (data : Js) : Js :=
  if truthy data = false then .arr []
  else if data.isArr then data
  else if truthy (getField data "hydra:member") then getField data "hydra:member"
  else if truthy (getField data "items") then getField data "items"
  else .arr []

/-- extractIdFromIri (index.js): last path segment before any query string,
or the whole string when it has no segments; null/undefined and the empty
string give `undefined`. -/
def extractIdFromIri (iriOrId : Js) : Js :=
  match iriOrId with
  | .null => .undefined
  | .undefined => .undefined
  | v =>
    let str := jsToString v
    if str = "" then .undefined
    else
      let noQuery := (splitChar str '?').headD ""
      let parts := (splitChar noQuery '/').filter (fun p => p ≠ "")
      match parts.getLast? with
      | some last => .str last
      | none => .str str

/-- getEntityId (index.js): first truthy of `id`, the last segment of `@id`,
`identifier`, `uuid`. -/
def getEntityId (entity : Js) : Js :=
  if truthy entity = false then .undefined
  else
    jsOr (getField entity "id")
      (jsOr (extractIdFromIri (getField entity "@id"))
        (jsOr (getField entity "identifier") (getField entity "uuid")))

/-- The two booking payload shapes built by createBooking: the flat
userId/spaceId shape and the relation-reference shape. -/
inductive BookingBody where
  | flat (userId spaceId : Js) (startDateTime endDateTime : String)
  | rel (user space : Js) (startDateTime endDateTime : String)

/-- One outbound HTTP request the CLI can make, with the data that
parameterises it in the source (paths, query parameters, booking body). -/
inductive Call where
  | getUsersByEmail (email : String)
  | getUsersAll
  | getBuildings
  | getFloorsQuery (buildingId : Js)
  | getFloorsNested (buildingId : Js)
  | getSpacesQuery (floorId : Js)
  | getSpacesNested (floorId : Js)
  | getBuildingDetail (id : Js)
  | postBooking (body : BookingBody)

/-- The remote service, as an oracle: each request either yields a response
body or fails with the (interceptor-rewritten) error message. -/
structure Env where
  call : Call → Except String Js

/-- Result of a fallible step: outcome plus the ordered network trace. -/
abbrev TracedRes (α : Type) := Except String α × List Call

/-- Sequence two traced steps: the second runs only on success, and its
calls follow the calls of the first (the order the code issues them). -/
def traceBind {α β : Type} (x : TracedRes α) (f : α → TracedRes β) : TracedRes β :=
  match x with
  | (.ok a, t) => ((f a).1, t ++ (f a).2)
  | (.error e, t) => (.error e, t)

/-- A CSV cell as JavaScript sees it: `undefined` when the column is absent,
otherwise its (csv-parse trimmed) string value. -/
def optJs : Option String → Js
  | none => .undefined
  | some s => .str s

/-- Truthiness of a CSV cell: present and non-empty. -/
def truthyOpt : Option String → Bool
  | none => false
  | some s => s != ""

/-- String() of a CSV cell (undefined prints as the text undefined). -/
def jsStringO : Option String → String
  | none => "undefined"
  | some s => s

/-- findUserByEmail (index.js): try the email-filtered users listing, fall
back to the full listing on failure (a failure of the fallback propagates),
then scan for a case-insensitive match on email or primaryEmail. -/
def findUserByEmail (env : Env) (email : String) : TracedRes Js :=
  let emailNorm := normalizeString (.str email)
  let pred := fun u => (normalizeString (getField u "email") == emailNorm) ||
                       (normalizeString (getField u "primaryEmail") == emailNorm)
  let pick := fun (members : Js) (t : List Call) =>
    match members with
    | Js.arr xs =>
      match xs.find? pred with
      | some u => ((Except.ok u : Except String Js), t)
      | none => (Except.error ("User not found by email: " ++ email), t)
    | _ => (Except.error "TypeError: members.find is not a function", t)
  match env.call (.getUsersByEmail email) with
  | .ok d => pick (toHydraMembers d) [.getUsersByEmail email]
  | .error _ =>
    match env.call .getUsersAll with
    | .ok d => pick (toHydraMembers d) [.getUsersByEmail email, .getUsersAll]
    | .error e => (.error e, [.getUsersByEmail email, .getUsersAll])

/-- findBuildingByName (index.js): list all buildings, scan for a
case-insensitive trimmed name match. -/
def findBuildingByName (env : Env) (buildingName : String) : TracedRes Js :=
  let nameNorm := normalizeString (.str buildingName)
  match env.call .getBuildings with
  | .error e => (.error e, [.getBuildings])
  | .ok d =>
    match toHydraMembers d with
    | .arr xs =>
      match xs.find? (fun b => normalizeString (getField b "name") == nameNorm) with
      | some b => (.ok b, [.getBuildings])
      | none => (.error ("Building not found: " ++ buildingName), [.getBuildings])
    | _ => (.error "TypeError: buildings.find is not a function", [.getBuildings])

/-- findFloorsForBuilding (index.js): query-parameter shape first; on any
failure the nested path shape; if that also fails, an error embedding the
building id. -/
def findFloorsForBuilding (env : Env) (buildingId : Js) : TracedRes Js :=
  match env.call (.getFloorsQuery buildingId) with
  | .ok d => (.ok (toHydraMembers d), [.getFloorsQuery buildingId])
  | .error _ =>
    match env.call (.getFloorsNested buildingId) with
    | .ok d => (.ok (toHydraMembers d), [.getFloorsQuery buildingId, .getFloorsNested buildingId])
    | .error e =>
      (.error ("Unable to list floors for building " ++ jsToString buildingId ++ ": " ++ e),
       [.getFloorsQuery buildingId, .getFloorsNested buildingId])

/-- findFloorByName (index.js). -/
def findFloorByName (env : Env) (buildingId : Js) (floorName : String) : TracedRes Js :=
  traceBind (findFloorsForBuilding env buildingId) (fun floors =>
    let nameNorm := normalizeString (.str floorName)
    match floors with
    | .arr xs =>
      match xs.find? (fun f => normalizeString (getField f "name") == nameNorm) with
      | some f => (.ok f, [])
      | none =>
        (.error ("Floor not found: " ++ floorName ++ " (building " ++ jsToString buildingId ++ ")"), [])
    | _ => (.error "TypeError: floors.find is not a function", []))

/-- findSpacesForFloor (index.js): same two-shape fallback as floors, the
final error embedding the floor id. -/
def findSpacesForFloor (env : Env) (floorId : Js) : TracedRes Js :=
  match env.call (.getSpacesQuery floorId) with
  | .ok d => (.ok (toHydraMembers d), [.getSpacesQuery floorId])
  | .error _ =>
    match env.call (.getSpacesNested floorId) with
    | .ok d => (.ok (toHydraMembers d), [.getSpacesQuery floorId, .getSpacesNested floorId])
    | .error e =>
      (.error ("Unable to list spaces for floor " ++ jsToString floorId ++ ": " ++ e),
       [.getSpacesQuery floorId, .getSpacesNested floorId])

/-- The space candidate predicate of findSpaceByName: name or displayName
must match; an empty type filter always passes; an entity without any type
field passes the filter too. -/
def spaceMatches (nameNorm typeNorm : String) (s : Js) : Bool :=
  let sName := (normalizeString (getField s "name") == nameNorm) ||
               (normalizeString (getField s "displayName") == nameNorm)
  if !sName then false
  else if typeNorm == "" then true
  else
    let sType := normalizeString (jsOr (getField s "type")
      (jsOr (getField s "spaceType") (jsOr (getField s "kind") (getField s "category"))))
    if sType != "" then sType == typeNorm else true

/-- findSpaceByName (index.js). -/
def findSpaceByName (env : Env) (floorId : Js) (spaceName : String) (spaceType : Option String) :
    TracedRes Js :=
  traceBind (findSpacesForFloor env floorId) (fun spaces =>
    let nameNorm := normalizeString (.str spaceName)
    let typeNorm := normalizeString (jsOr (optJs spaceType) (.str ""))
    match spaces with
    | .arr xs =>
      match xs.find? (spaceMatches nameNorm typeNorm) with
      | some c => (.ok c, [])
      | none =>
        (.error ("Space not found: " ++ spaceName ++
          (if typeNorm != "" then " (type " ++ jsStringO spaceType ++ ")" else "") ++
          " (floor " ++ jsToString floorId ++ ")"), [])
    | _ => (.error "TypeError: spaces.find is not a function", []))

/-- resolveBuildingTimezone (index.js): first truthy of four field spellings,
else the literal UTC. -/
def resolveBuildingTimezone (building : Js) : Js :=
  jsOr (getField building "timezone")
    (jsOr (getField building "timeZone")
      (jsOr (getField building "tz")
        (jsOr (getField building "time_zone") (.str "UTC"))))

/-- Strict equality against the string literal UTC. -/
def isStrUTC : Js → Bool
  | .str s => s == "UTC"
  | _ => false

/-- ensureBuildingTimezone (index.js): keep a specific zone; otherwise fetch
the full building record once and look again, falling back to the first
answer on any failure. Never fails. -/
def ensureBuildingTimezone (env : Env) (building : Js) : Js × List Call :=
  let tz := resolveBuildingTimezone building
  if truthy tz && !(isStrUTC tz) then (tz, [])
  else
    let id := getEntityId building
    if truthy id = false then (tz, [])
    else
      match env.call (.getBuildingDetail id) with
      | .ok d =>
        let full := if truthy d then d else .obj []
        (jsOr (getField full "timezone")
          (jsOr (getField full "timeZone")
            (jsOr (getField full "tz")
              (jsOr (getField full "time_zone") tz))), [.getBuildingDetail id])
      | .error _ => (tz, [.getBuildingDetail id])

/-- The date regex of processRow, four digits, dash, two digits, dash, two
digits, anchored at both ends. -/
def datePattern (cs : List Char) : Bool :=
  match cs with
  | [y1, y2, y3, y4, '-', m1, m2, '-', d1, d2] =>
    y1.isDigit && y2.isDigit && y3.isDigit && y4.isDigit &&
    m1.isDigit && m2.isDigit && d1.isDigit && d2.isDigit
  | _ => false

/-- The time regex of isValidTimeString, one or two digits, colon, two
digits, anchored at both ends. -/
def timePattern (cs : List Char) : Bool :=
  match cs with
  | [a, ':', c, d] => a.isDigit && c.isDigit && d.isDigit
  | [a, b, ':', c, d] => a.isDigit && b.isDigit && c.isDigit && d.isDigit
  | _ => false

/-- isValidTimeString (index.js): trim `String(value || FOO)` with FOO empty,
then test the H:mm / HH:mm pattern. -/
def isValidTimeString (value : Option String) : Bool :=
  timePattern ((jsTrim (match value with | none => "" | some s => s)).data)

/-- Numeric value of a digit list (most significant first). -/
def digitsToNat (cs : List Char) : Nat :=
  cs.foldl (fun a c => a * 10 + (c.toNat - 48)) 0

/-- Parse a YYYY-MM-DD string (already pattern-checked; `none` otherwise). -/
def parseDateYmd (s : String) : Option (Nat × Nat × Nat) :=
  match s.data with
  | [y1, y2, y3, y4, '-', m1, m2, '-', d1, d2] =>
    if datePattern s.data then
      some (digitsToNat [y1, y2, y3, y4], digitsToNat [m1, m2], digitsToNat [d1, d2])
    else none
  | _ => none

/-- Parse an H:mm or HH:mm string (`none` when it fails the pattern). -/
def parseTimeHm (s : String) : Option (Nat × Nat) :=
  match s.data with
  | [a, ':', c, d] =>
    if timePattern s.data then some (digitsToNat [a], digitsToNat [c, d]) else none
  | [a, b, ':', c, d] =>
    if timePattern s.data then some (digitsToNat [a, b], digitsToNat [c, d]) else none
  | _ => none

/-- Days from the civil epoch 1970-01-01 (proleptic Gregorian, the standard
era/year-of-era computation used by timezone libraries). -/
def daysFromCivil (y m d : Int) : Int :=
  let y1 := if m ≤ 2 then y - 1 else y
  let era := Int.fdiv y1 400
  let yoe := y1 - era * 400
  let mp := Int.fmod (m + 9) 12
  let doy := Int.fdiv (153 * mp + 2) 5 + d - 1
  let doe := yoe * 365 + Int.fdiv yoe 4 - Int.fdiv yoe 100 + doy
  era * 146097 + doe - 719468

/-- Civil date back from days since 1970-01-01. -/
def civilFromDays (z0 : Int) : Int × Int × Int :=
  let z := z0 + 719468
  let era := Int.fdiv z 146097
  let doe := z - era * 146097
  let yoe := Int.fdiv (doe - Int.fdiv doe 1461 + Int.fdiv doe 36524 - Int.fdiv doe 146097) 365
  let y1 := yoe + era * 400
  let doy := doe - (365 * yoe + Int.fdiv yoe 4 - Int.fdiv yoe 100)
  let mp := Int.fdiv (5 * doy + 2) 153
  let d := doy - Int.fdiv (153 * mp + 2) 5 + 1
  let m := mp + (if mp < 10 then 3 else -9)
  (y1 + (if m ≤ 2 then 1 else 0), m, d)

/-- Day of week, 0 = Sunday (1970-01-01 was a Thursday). -/
def dayOfWeek (days : Int) : Int := Int.fmod (days + 4) 7

/-- Day of month of the first Sunday of month `m` in year `y`. -/
def firstSundayOfMonth (y m : Int) : Int :=
  let w := dayOfWeek (daysFromCivil y m 1)
  1 + Int.fmod (7 - w) 7

/-- Modelled from the IANA tz database as applied by the moment-timezone
dependency: the US daylight-saving rule (in force since 2007) for
America/New_York, daylight time from 02:00 local on the second Sunday of
March until 02:00 local on the first Sunday of November. -/
def inDstUsEastern (y m d h : Int) : Bool :=
  if m < 3 || m > 11 then false
  else if m > 3 && m < 11 then true
  else if m = 3 then
    let ssm := firstSundayOfMonth y 3 + 7
    d > ssm || (d = ssm && h ≥ 2)
  else
    let fsn := firstSundayOfMonth y 11
    d < fsn || (d = fsn && h < 2)

/-- Modelled from the IANA tz database as applied by the moment-timezone
dependency: offset (minutes to add to UTC to get local time) of the zones
the pipeline exercises. America/New_York is -240 during daylight time and
-300 otherwise; UTC and any zone outside the model are 0. -/
def tzOffsetMinutes (tz : String) (y m d h : Int) : Int :=
  if tz = "America/New_York" then
    if inDstUsEastern y m d h then -240 else -300
  else 0

/-- Two-digit zero-padded decimal. -/
def pad2 (n : Nat) : String :=
  if n < 10 then "0" ++ toString n else toString n

/-- Four-digit zero-padded decimal. -/
def pad4 (n : Nat) : String :=
  if n < 10 then "000" ++ toString n
  else if n < 100 then "00" ++ toString n
  else if n < 1000 then "0" ++ toString n
  else toString n

/-- The moment.tz / utc / toISOString chain: interpret date + H:mm as wall
clock in the given zone, convert to UTC, print an ISO-8601 instant with
millisecond precision. An unparseable input yields the moment invalid
marker. -/
def localToUtcIso (tz : String) (dateStr timeStr : String) : String :=
  match parseDateYmd dateStr, parseTimeHm timeStr with
  | some (y, m, d), some (hh, mm) =>
    let days := daysFromCivil (Int.ofNat y) (Int.ofNat m) (Int.ofNat d)
    let offset := tzOffsetMinutes tz (Int.ofNat y) (Int.ofNat m) (Int.ofNat d) (Int.ofNat hh)
    let utcMin := days * 1440 + (Int.ofNat hh) * 60 + Int.ofNat mm - offset
    let utcDays := Int.fdiv utcMin 1440
    let rem := Int.fmod utcMin 1440
    let (uy, um, ud) := civilFromDays utcDays
    pad4 uy.toNat ++ "-" ++ pad2 um.toNat ++ "-" ++ pad2 ud.toNat ++ "T" ++
      pad2 (Int.fdiv rem 60).toNat ++ ":" ++ pad2 (Int.fmod rem 60).toNat ++ ":00.000Z"
  | _, _ => "Invalid date"

/-- The value computed by computeUtcRangeForDateAndTimes. -/
structure UtcRange where
  startUtc : String
  endUtc : String
  date : String
deriving DecidableEq

/-- computeUtcRangeForDateAndTimes (index.js): trim the date; use each time
string (trimmed) when it passes isValidTimeString, else the default 09:00 /
17:00; interpret both as wall clock in the building timezone and convert to
UTC. -/
def computeUtcRangeForDateAndTimes (buildingTz : String) (dateStr : String)
    (startTimeStr endTimeStr : Option String) : UtcRange :=
  let date := jsTrim dateStr
  let startStr := if isValidTimeString startTimeStr then jsTrim (jsStringO startTimeStr) else "09:00"
  let endStr := if isValidTimeString endTimeStr then jsTrim (jsStringO endTimeStr) else "17:00"
  { startUtc := localToUtcIso buildingTz date startStr
    endUtc := localToUtcIso buildingTz date endStr
    date := date }

/-- The payload handed to createBooking by processRow (userIri/spaceIri are
never set there, hence undefined). -/
structure BookingPayload where
  userId : Js
  spaceId : Js
  startUtc : String
  endUtc : String
  userIri : Js
  spaceIri : Js

/-- The first body candidate of createBooking: flat userId/spaceId fields. -/
def primaryBody (p : BookingPayload) : BookingBody :=
  .flat p.userId p.spaceId p.startUtc p.endUtc

/-- The second body candidate of createBooking: relation references
/users/id and /spaces/id (or the given IRIs), undefined when no id. -/
def secondaryBody (p : BookingPayload) : BookingBody :=
  .rel (jsOr p.userIri (if truthy p.userId then .str ("/users/" ++ jsToString p.userId) else .undefined))
    (jsOr p.spaceIri (if truthy p.spaceId then .str ("/spaces/" ++ jsToString p.spaceId) else .undefined))
    p.startUtc p.endUtc

/-- bodyCandidates (index.js), in attempt order. -/
def bodyCandidates (p : BookingPayload) : List BookingBody :=
  [primaryBody p, secondaryBody p]

/-- The candidate loop of createBooking: post each body until one succeeds,
remembering only the most recent error; when the list is exhausted, raise
the last error (or the no-variant message if there was none). -/
def tryBookingBodies (env : Env) (bodies : List BookingBody) (lastError : Option String) :
    TracedRes Js :=
  match bodies with
  | [] => (.error (lastError.getD "Failed to create booking with any payload variant"), [])
  | body :: rest =>
    match env.call (.postBooking body) with
    | .ok r => (.ok r, [.postBooking body])
    | .error e =>
      let y := tryBookingBodies env rest (some e)
      (y.1, .postBooking body :: y.2)

/-- createBooking (index.js). -/
def createBooking (env : Env) (p : BookingPayload) : TracedRes Js :=
  tryBookingBodies env (bodyCandidates p) none

/-- One CSV record under the exact header names this variant reads. A field
is `none` when its column is absent from the file. -/
structure CsvRow where
  emailAddress : Option String
  buildingName : Option String
  floorName : Option String
  spaceName : Option String
  spaceType : Option String
  date : Option String
  startTime : Option String
  endTime : Option String

/-- The per-row options processRow receives from the worker. -/
structure RowOptions where
  dryRun : Bool

/-- The result object processRow returns (dry-run results carry no id field;
that is modelled as undefined). -/
structure RowResult where
  status : String
  id : Js
  user : Js
  building : Js
  floor : Js
  space : Js
  spaceType : Js
  startUtc : String
  endUtc : String
  buildingTz : Js
  date : String

/-- The missing-required-columns message of processRow. -/
def missingColumnsMsg : String :=
  "CSV row missing required columns (Email Address, Building Name, Floor Name, Space Name, Space Type, Date)"

/-- The malformed-date message of processRow, naming the offending value. -/
def invalidDateMsg (dateInput : Option String) : String :=
  "Invalid date format for row. Expected YYYY-MM-DD, got: " ++ jsStringO dateInput

/-- The validation predicate of processRow: all six required cells truthy. -/
def requiredColumnsPresent (row : CsvRow) : Bool :=
  truthyOpt row.emailAddress && truthyOpt row.buildingName && truthyOpt row.floorName &&
  truthyOpt row.spaceName && truthyOpt row.spaceType && truthyOpt row.date

/-- processRow (index.js): validate columns, validate the date format, then
resolve user, building, floor and space, resolve the timezone, compute the
UTC window, and either return the dry-run record or create the booking.
Every network call the row makes is collected in order in the trace. -/
def processRow (env : Env) (row : CsvRow) (options : RowOptions) : TracedRes RowResult :=
  if !(requiredColumnsPresent row) then (.error missingColumnsMsg, [])
  else if !(datePattern (jsTrim (jsStringO row.date)).data) then
    (.error (invalidDateMsg row.date), [])
  else
    let email := jsStringO row.emailAddress
    traceBind (findUserByEmail env email) (fun user =>
    traceBind (findBuildingByName env (jsStringO row.buildingName)) (fun building =>
    traceBind (findFloorByName env (getEntityId building) (jsStringO row.floorName)) (fun floor =>
    traceBind (findSpaceByName env (getEntityId floor) (jsStringO row.spaceName) row.spaceType)
      (fun space =>
      let tzResult := ensureBuildingTimezone env building
      let buildingTz := tzResult.1
      let range := computeUtcRangeForDateAndTimes (jsToString buildingTz)
        (jsTrim (jsStringO row.date)) row.startTime row.endTime
      if options.dryRun then
        ((.ok
          { status := "dry-run"
            id := .undefined
            user := jsOr (getField user "email") (jsOr (getField user "primaryEmail") (.str email))
            building := getField building "name"
            floor := getField floor "name"
            space := jsOr (getField space "name") (getField space "displayName")
            spaceType := optJs row.spaceType
            startUtc := range.startUtc
            endUtc := range.endUtc
            buildingTz := buildingTz
            date := range.date }), tzResult.2)
      else
        (traceBind (createBooking env
            { userId := getEntityId user
              spaceId := getEntityId space
              startUtc := range.startUtc
              endUtc := range.endUtc
              userIri := .undefined
              spaceIri := .undefined }) (fun booking =>
          ((.ok
            { status := "created"
              id := jsAnd booking (jsOr (getField booking "id")
                (jsOr (extractIdFromIri (getField booking "@id")) (getField booking "uuid")))
              user := jsOr (getField user "email") (jsOr (getField user "primaryEmail") (.str email))
              building := getField building "name"
              floor := getField floor "name"
              space := jsOr (getField space "name") (getField space "displayName")
              spaceType := optJs row.spaceType
              startUtc := range.startUtc
              endUtc := range.endUtc
              buildingTz := buildingTz
              date := range.date }), []))) |> fun y => (y.1, tzResult.2 ++ y.2)))))

/-- replaceAll of a double quote by two double quotes, structurally. -/
def escQuotes : List Char → List Char
  | [] => []
  | c :: rest =>
    if c = '\x22' then '\x22' :: '\x22' :: escQuotes rest else c :: escQuotes rest

/-- The per-field escaping of appendFailureLog:
`String(v == null ? FOO : v).replaceAll(q, qq)` with FOO empty and q a double
quote (loose == null also matches undefined). -/
def safeLogField (v : Js) : String :=
  String.mk (escQuotes (jsToString (match v with | .null => .str "" | .undefined => .str "" | x => x)).data)

/-- One line appended by appendFailureLog for a failed row: the ten
double-quoted comma-joined fields, times defaulted, newline-terminated. -/
def failureLogLine (rowIndex : Nat) (row : CsvRow) (errorMessage : String) : String :=
  String.intercalate ","
    (([Js.num (Int.ofNat rowIndex),
       optJs row.emailAddress,
       optJs row.buildingName,
       optJs row.floorName,
       optJs row.spaceName,
       optJs row.spaceType,
       optJs row.date,
       jsOr (optJs row.startTime) (.str "09:00"),
       jsOr (optJs row.endTime) (.str "17:00"),
       Js.str errorMessage]).map (fun v => "\x22" ++ safeLogField v ++ "\x22")) ++ "\n"

/-- The outcome a worker pushes for one row: 1-based row number with either
the result record or the error message. -/
inductive RowOutcome where
  | okRow (row : Nat) (res : RowResult)
  | errRow (row : Nat) (msg : String)

/-- Whether an outcome is a failure. -/
def RowOutcome.isErr : RowOutcome → Bool
  | .okRow _ _ => false
  | .errRow _ _ => true

/-- The body of the worker loop applied to rows from index `i` on (the
sequential order; outcome multiplicity under concurrency is the pool model
below): on success push an ok outcome, on failure push the failed outcome
AND append a failure-log line — the catch block does both whether or not the
run is a dry run. -/
def processRowsFrom (env : Env) (dryRun : Bool) : Nat → List CsvRow → List RowOutcome × List String
  | _, [] => ([], [])
  | i, row :: rest =>
    let tail := processRowsFrom env dryRun (i + 1) rest
    match (processRow env row { dryRun := dryRun }).1 with
    | .ok res => (.okRow (i + 1) res :: tail.1, tail.2)
    | .error e => (.errRow (i + 1) e :: tail.1, failureLogLine (i + 1) row e :: tail.2)

/-- All rows of a run, plus the failure-log lines the run appends. -/
def processRows (env : Env) (rows : List CsvRow) (dryRun : Bool) :
    List RowOutcome × List String :=
  processRowsFrom env dryRun 0 rows

/-- JavaScript parseInt(v, 10): skip leading whitespace, optional sign, then
the longest digit prefix; no digits means NaN (`none`). -/
def parseIntJs (s : String) : Option Int :=
  let cs := s.data.dropWhile (fun c => c = ' ' || c = '\t' || c = '\n' || c = '\r')
  let digitsVal := fun (rest : List Char) =>
    let ds := rest.takeWhile Char.isDigit
    if ds.isEmpty then none else some (digitsToNat ds)
  match cs with
  | '-' :: rest => (digitsVal rest).map (fun n => -(Int.ofNat n))
  | '+' :: rest => (digitsVal rest).map Int.ofNat
  | rest => (digitsVal rest).map Int.ofNat

/-- The commander option value for --concurrency: the default 1 when the
flag is absent, else parseInt of the given text (`none` models NaN). -/
def parsedConcurrency : Option String → Option Int
  | none => some 1
  | some v => parseIntJs v

/-- The effective pool size (index.js run):
`Math.max(1, Number(opts.concurrency || 1))`; NaN and 0 are falsy, so both
fall back to 1 before the floor is applied. -/
def effectiveConcurrency (arg : Option String) : Int :=
  let c := parsedConcurrency arg
  let n : Int := match c with
    | none => 1
    | some k => if k = 0 then 1 else k
  max 1 n

/-- State of the worker pool over `n` rows: the shared row cursor, how many
workers sit at the top of their loop, the rows currently being processed (in
flight), the row indices already pushed to results, and how many workers
have exited their loop. Workers are symmetric, so the pool state abstracts
worker identity; the cursor check-and-increment is one step because it is
synchronous JavaScript on the event loop, while the row processing itself
happens across an await. -/
structure PoolSt where
  index : Nat
  idle : Nat
  inflight : List Nat
  outcomes : List Nat
  finished : Nat

/-- The three atomic things a worker does between awaits: claim the next row
(take), come back from processRow and push its outcome (complete), or
observe the cursor past the end and break (finish). -/
inductive PoolAct where
  | take
  | complete (i : Nat)
  | finishW

/-- One scheduler step of the pool; an action that is not enabled changes
nothing. -/
def poolStep (n : Nat) (s : PoolSt) : PoolAct → PoolSt
  | .take =>
    if 0 < s.idle ∧ s.index < n then
      { s with index := s.index + 1, idle := s.idle - 1, inflight := s.inflight ++ [s.index] }
    else s
  | .complete i =>
    if i ∈ s.inflight then
      { s with inflight := s.inflight.erase i, outcomes := s.outcomes ++ [i], idle := s.idle + 1 }
    else s
  | .finishW =>
    if 0 < s.idle ∧ n ≤ s.index then
      { s with idle := s.idle - 1, finished := s.finished + 1 }
    else s

/-- A pool of `k` workers before any step. -/
def poolInit (k : Nat) : PoolSt := { index := 0, idle := k, inflight := [], outcomes := [], finished := 0 }

/-- Run the pool of `k` workers over `n` rows under an arbitrary schedule. -/
def runPool (k n : Nat) (acts : List PoolAct) : PoolSt :=
  acts.foldl (poolStep n) (poolInit k)

/-- All workers have exited (every worker loop returned; Promise.all
resolved). -/
def allWorkersDone (k : Nat) (s : PoolSt) : Bool :=
  s.finished == k

/-- State of the module-level token cache of createAxiosClient, together
with the per-caller position inside getToken for each concurrent caller of
the request interceptor (client-credentials mode: no static token, key id
and secret set). A caller is at `start` before the cache check, at
`awaiting` while its token exchange request is in flight (the exchange has
been issued), and `done` once getToken returned. -/
inductive TokenPc where
  | start
  | awaiting
  | done

/-- The shared cache plus each caller program counter and the count of
exchange requests issued so far. All callers run at the same instant
(now = 0); the initial cache is empty with expiry 0. -/
structure TokenSt where
  cachedToken : Option String
  tokenExpiresAtMs : Int
  exchangeCount : Nat
  pcs : List TokenPc

/-- The cache-freshness check of getToken: a cached token more than 30
seconds from expiry. -/
def tokenFresh (now : Int) (s : TokenSt) : Bool :=
  s.cachedToken.isSome && decide (now < s.tokenExpiresAtMs - 30000)

/-- One step of caller `w`: at `start`, return the cached token when fresh,
otherwise issue the exchange (increment the count) and await it; at
`awaiting`, the response arrives and the caller stores the token with a one
hour expiry. Steps of callers that are done change nothing. -/
def tokenStep (s : TokenSt) (w : Nat) : TokenSt :=
  match s.pcs.get? w with
  | some .start =>
    if tokenFresh 0 s then { s with pcs := s.pcs.set w .done }
    else { s with exchangeCount := s.exchangeCount + 1, pcs := s.pcs.set w .awaiting }
  | some .awaiting =>
    { s with cachedToken := some "access", tokenExpiresAtMs := 0 + 3600 * 1000,
             pcs := s.pcs.set w .done }
  | _ => s

/-- `k` concurrent callers entering getToken with an empty cache. -/
def tokenInit (k : Nat) : TokenSt :=
  { cachedToken := none, tokenExpiresAtMs := 0, exchangeCount := 0, pcs := List.replicate k .start }

/-- Interleave `k` callers of getToken under an arbitrary schedule of caller
indices. -/
def runToken (k : Nat) (sched : List Nat) : TokenSt :=
  sched.foldl tokenStep (tokenInit k)

/-- An offline remote service: every request fails. -/
def envOffline : Env := { call := fun _ => Except.error "HTTP 500: server error" }

/-- A remote service whose every listing succeeds with an empty collection. -/
def envEmptyColl : Env := { call := fun _ => Except.ok (Js.arr []) }

/-- A fully populated, well-formed CSV row. -/
def rowGood : CsvRow :=
  { emailAddress := some "a@b.c", buildingName := some "HQ", floorName := some "1",
    spaceName := some "D1", spaceType := some "desk", date := some "2025-08-15",
    startTime := none, endTime := none }

/-- rowGood with the malformed date the spec uses as its example. -/
def rowBadDate : CsvRow := { rowGood with date := some "2025-8-1" }

/-- rowGood with an empty Space Type cell. -/
def rowNoType : CsvRow := { rowGood with spaceType := some "" }

/-- A remote service where both floor-listing shapes fail and everything else returns an empty collection. -/
def envMixed : Env :=
  { call := fun c =>
      match c with
      | .getFloorsQuery _ => Except.error "HTTP 400: bad filter"
      | .getFloorsNested _ => Except.error "HTTP 404: not found"
      | _ => Except.ok (Js.arr []) }

/-- A response body is hydra-well-shaped when each of its member-list fields (hydra:member, items), if present and truthy, holds an array. -/
def hydraWellShaped (data : Js) : Bool :=
  (!truthy (getField data "hydra:member") || (getField data "hydra:member").isArr) &&
  (!truthy (getField data "items") || (getField data "items").isArr)

/-- Whether a request is the booking-creation POST. -/
def isPostCall : Call → Bool
  | .postBooking _ => true
  | _ => false

/-- Whether a network trace contains any booking-creation POST. -/
def containsPost (t : List Call) : Bool := t.any isPostCall

/-- Whether a caller of getToken still sits before its cache check. -/
def isStartPc : TokenPc → Bool
  | .start => true
  | _ => false

/-- How many callers still sit before their cache check. -/
def startCount (pcs : List TokenPc) : Nat := (pcs.filter isStartPc).length

/-- Total number of workers a pool state accounts for. -/
def poolWorkers (s : PoolSt) : Nat := s.idle + s.inflight.length + s.finished

/-- The pool invariant: the cursor never passes the row count, the pushed outcomes plus the in-flight rows are exactly the claimed prefix of rows (each once), the worker count is conserved, and a worker only finishes once the cursor is past the end. -/
def PoolInv (k n : Nat) (s : PoolSt) : Prop :=
  s.index ≤ n ∧ (s.outcomes ++ s.inflight).Perm (List.range s.index) ∧
    poolWorkers s = k ∧ (0 < s.finished → n ≤ s.index)

/-- A demonstration schedule: two workers interleaving over three rows. -/
def poolSchedDemo : List PoolAct :=
  [.take, .take, .complete 0, .take, .complete 2, .complete 1, .finishW, .finishW]

/-- Sequencing two traced steps that issue no booking POST issues no booking POST. -/
theorem containsPost_traceBind {α β : Type} (x : TracedRes α) (f : α → TracedRes β)
    (h1 : containsPost x.2 = false) (h2 : ∀ a, containsPost (f a).2 = false) :
    containsPost (traceBind x f).2 = false := by
  obtain ⟨r, t⟩ := x
  cases r with
  | ok a =>
    simp only [traceBind, containsPost, List.any_append, Bool.or_eq_false_iff]
    exact ⟨h1, h2 a⟩
  | error e => exact h1

/-- The user resolver never posts a booking. -/
theorem containsPost_findUserByEmail (env : Env) (email : String) :
    containsPost (findUserByEmail env email).2 = false := by
  unfold findUserByEmail
  cases env.call (.getUsersByEmail email) with
  | ok d => dsimp only; split <;> first | rfl | (split <;> rfl)
  | error e =>
    cases env.call .getUsersAll with
    | ok d => dsimp only; split <;> first | rfl | (split <;> rfl)
    | error e2 => rfl

/-- The building resolver never posts a booking. -/
theorem containsPost_findBuildingByName (env : Env) (buildingName : String) :
    containsPost (findBuildingByName env buildingName).2 = false := by
  unfold findBuildingByName
  cases env.call .getBuildings with
  | ok d => dsimp only; split <;> first | rfl | (split <;> rfl)
  | error e => rfl

/-- The floors listing never posts a booking. -/
theorem containsPost_findFloorsForBuilding (env : Env) (buildingId : Js) :
    containsPost (findFloorsForBuilding env buildingId).2 = false := by
  unfold findFloorsForBuilding
  cases env.call (.getFloorsQuery buildingId) with
  | ok d => rfl
  | error e => cases env.call (.getFloorsNested buildingId) <;> rfl

/-- The floor resolver never posts a booking. -/
theorem containsPost_findFloorByName (env : Env) (buildingId : Js) (floorName : String) :
    containsPost (findFloorByName env buildingId floorName).2 = false := by
  unfold findFloorByName
  refine containsPost_traceBind _ _ (containsPost_findFloorsForBuilding env buildingId)
    (fun floors => ?_)
  dsimp only; split <;> first | rfl | (split <;> rfl)

/-- The spaces listing never posts a booking. -/
theorem containsPost_findSpacesForFloor (env : Env) (floorId : Js) :
    containsPost (findSpacesForFloor env floorId).2 = false := by
  unfold findSpacesForFloor
  cases env.call (.getSpacesQuery floorId) with
  | ok d => rfl
  | error e => cases env.call (.getSpacesNested floorId) <;> rfl

/-- The space resolver never posts a booking. -/
theorem containsPost_findSpaceByName (env : Env) (floorId : Js) (spaceName : String)
    (spaceType : Option String) :
    containsPost (findSpaceByName env floorId spaceName spaceType).2 = false := by
  unfold findSpaceByName
  refine containsPost_traceBind _ _ (containsPost_findSpacesForFloor env floorId)
    (fun spaces => ?_)
  dsimp only; split <;> first | rfl | (split <;> rfl)

/-- The timezone fallback fetch never posts a booking. -/
theorem containsPost_ensureBuildingTimezone (env : Env) (building : Js) :
    containsPost (ensureBuildingTimezone env building).2 = false := by
  unfold ensureBuildingTimezone
  dsimp only
  split
  · rfl
  · split
    · rfl
    · split <;> rfl

/-- A dry-run row issues no booking-creation POST, whatever the remote service answers and wherever the row fails. -/
theorem containsPost_processRow_dryRun (env : Env) (row : CsvRow) :
    containsPost (processRow env row { dryRun := true }).2 = false := by
  unfold processRow
  split
  · rfl
  · split
    · rfl
    · refine containsPost_traceBind _ _ (containsPost_findUserByEmail env _) (fun user => ?_)
      refine containsPost_traceBind _ _ (containsPost_findBuildingByName env _) (fun building => ?_)
      refine containsPost_traceBind _ _ (containsPost_findFloorByName env _ _) (fun floor => ?_)
      refine containsPost_traceBind _ _ (containsPost_findSpaceByName env _ _ _) (fun space => ?_)
      dsimp only
      exact containsPost_ensureBuildingTimezone env building

/-- The worker loop appends exactly one failure-log line per failed outcome, in dry-run and in live mode alike. -/
theorem logLines_count_err (env : Env) (d : Bool) (rows : List CsvRow) (i : Nat) :
    (processRowsFrom env d i rows).2.length =
      ((processRowsFrom env d i rows).1.filter RowOutcome.isErr).length := by
  induction rows generalizing i with
  | nil => rfl
  | cons r rest ih =>
    cases h : (processRow env r { dryRun := d }).1 with
    | ok res => simp [processRowsFrom, h, RowOutcome.isErr, ih (i + 1)]
    | error e => simp [processRowsFrom, h, RowOutcome.isErr, ih (i + 1)]

/-- startCount over a cons. -/
theorem startCount_cons (p : TokenPc) (rest : List TokenPc) :
    startCount (p :: rest) = (if isStartPc p = true then 1 else 0) + startCount rest := by
  simp only [startCount, List.filter_cons]
  split <;> simp [Nat.add_comm]

/-- Moving a caller out of the start position lowers startCount by one. -/
theorem startCount_set_of_start (pcs : List TokenPc) (w : Nat) (x : TokenPc)
    (hw : pcs.get? w = some .start) (hx : isStartPc x = false) :
    startCount (pcs.set w x) + 1 = startCount pcs := by
  induction pcs generalizing w with
  | nil => simp at hw
  | cons p rest ih =>
    cases w with
    | zero =>
      simp only [List.get?] at hw
      injection hw with hw
      subst hw
      simp only [List.set, startCount_cons, hx]
      simp [isStartPc]
      omega
    | succ w =>
      simp only [List.get?] at hw
      simp only [List.set, startCount_cons]
      have := ih w hw
      omega

/-- Moving a caller between non-start positions leaves startCount unchanged. -/
theorem startCount_set_of_not_start (pcs : List TokenPc) (w : Nat) (x y : TokenPc)
    (hw : pcs.get? w = some y) (hy : isStartPc y = false) (hx : isStartPc x = false) :
    startCount (pcs.set w x) = startCount pcs := by
  induction pcs generalizing w with
  | nil => simp at hw
  | cons p rest ih =>
    cases w with
    | zero =>
      simp only [List.get?] at hw
      injection hw with hw
      subst hw
      simp only [List.set, startCount_cons, hy, hx]
    | succ w =>
      simp only [List.get?] at hw
      simp only [List.set, startCount_cons]
      have := ih w hw
      omega

/-- One getToken step preserves the bound: exchanges issued plus callers still before their check never exceed the caller count. -/
theorem tokenStep_inv (k : Nat) (s : TokenSt) (w : Nat)
    (h : s.exchangeCount + startCount s.pcs ≤ k) :
    (tokenStep s w).exchangeCount + startCount (tokenStep s w).pcs ≤ k := by
  unfold tokenStep
  cases hw : s.pcs.get? w with
  | none => simp only [hw]; exact h
  | some pc =>
    cases pc with
    | start =>
      simp only [hw]
      split
      · have := startCount_set_of_start s.pcs w .done hw (by decide)
        dsimp only
        omega
      · have := startCount_set_of_start s.pcs w .awaiting hw (by decide)
        dsimp only
        omega
    | awaiting =>
      simp only [hw]
      have := startCount_set_of_not_start s.pcs w .done .awaiting hw (by decide) (by decide)
      omega
    | done => simp only [hw]; exact h

/-- All callers initially sit before their check. -/
theorem startCount_replicate_start (k : Nat) :
    startCount (List.replicate k .start) = k := by
  induction k with
  | zero => rfl
  | succ k ih =>
    simp only [List.replicate, startCount_cons, ih]
    simp [isStartPc]
    omega

/-- The token bound is preserved along any schedule. -/
theorem runToken_foldl_inv (k : Nat) (sched : List Nat) (s : TokenSt)
    (h : s.exchangeCount + startCount s.pcs ≤ k) :
    (sched.foldl tokenStep s).exchangeCount + startCount (sched.foldl tokenStep s).pcs ≤ k := by
  induction sched generalizing s with
  | nil => exact h
  | cons w rest ih => exact ih _ (tokenStep_inv k s w h)

/-- One pool step preserves the pool invariant. -/
theorem poolStep_inv (k n : Nat) (s : PoolSt) (a : PoolAct) (h : PoolInv k n s) :
    PoolInv k n (poolStep n s a) := by
  obtain ⟨h1, h2, h3, h4⟩ := h
  cases a with
  | take =>
    simp only [poolStep]
    split
    · next hc =>
      obtain ⟨hidle, hlt⟩ := hc
      refine ⟨hlt, ?_, ?_, fun hf => ?_⟩
      · show (s.outcomes ++ (s.inflight ++ [s.index])).Perm (List.range (s.index + 1))
        have e1 : s.outcomes ++ (s.inflight ++ [s.index]) =
            (s.outcomes ++ s.inflight) ++ [s.index] := (List.append_assoc _ _ _).symm
        rw [List.range_succ, e1]
        exact h2.append_right _
      · show s.idle - 1 + (s.inflight ++ [s.index]).length + s.finished = k
        unfold poolWorkers at h3
        rw [List.length_append]
        simp only [List.length_cons, List.length_nil]
        omega
      · show n ≤ s.index + 1
        have hf2 : 0 < s.finished := hf
        have := h4 hf2
        omega
    · exact ⟨h1, h2, h3, h4⟩
  | complete i =>
    simp only [poolStep]
    split
    · next hmem =>
      have hlen : (s.inflight.erase i).length = s.inflight.length - 1 :=
        List.length_erase_of_mem hmem
      have hpos : 0 < s.inflight.length :=
        List.length_pos.mpr (List.ne_nil_of_mem hmem)
      refine ⟨h1, ?_, ?_, fun hf => h4 hf⟩
      · show ((s.outcomes ++ [i]) ++ s.inflight.erase i).Perm (List.range s.index)
        have pc : s.inflight.Perm (i :: s.inflight.erase i) := List.perm_cons_erase hmem
        have e1 : (s.outcomes ++ [i]) ++ s.inflight.erase i =
            s.outcomes ++ (i :: s.inflight.erase i) := by
          rw [List.append_assoc]
          rfl
        rw [e1]
        exact (List.Perm.append_left s.outcomes pc.symm).trans h2
      · show s.idle + 1 + (s.inflight.erase i).length + s.finished = k
        unfold poolWorkers at h3
        omega
    · exact ⟨h1, h2, h3, h4⟩
  | finishW =>
    simp only [poolStep]
    split
    · next hc =>
      obtain ⟨hidle, hge⟩ := hc
      refine ⟨h1, h2, ?_, fun _ => hge⟩
      show s.idle - 1 + s.inflight.length + (s.finished + 1) = k
      unfold poolWorkers at h3
      omega
    · exact ⟨h1, h2, h3, h4⟩

/-- The pool invariant is preserved along any schedule. -/
theorem runPool_foldl_inv (k n : Nat) (acts : List PoolAct) (s : PoolSt) (h : PoolInv k n s) :
    PoolInv k n (acts.foldl (poolStep n) s) := by
  induction acts generalizing s with
  | nil => exact h
  | cons a rest ih => exact ih _ (poolStep_inv k n s a h)

/-- The pool invariant holds in every reachable pool state. -/
theorem runPool_inv (k n : Nat) (acts : List PoolAct) : PoolInv k n (runPool k n acts) := by
  have h0 : PoolInv k n (poolInit k) := by
    refine ⟨Nat.zero_le n, by simp [poolInit], by simp [poolInit, poolWorkers], fun hf => ?_⟩
    simp [poolInit] at hf
  exact runPool_foldl_inv k n acts (poolInit k) h0

/-- C1 counterexample: with --dry-run, a row that fails during resolution (user lookup finds nothing) still gets a failure-log line appended — the worker catch block logs every row failure without consulting the dry-run flag, so the failure log is written in dry-run mode, contrary to the claim. -/
theorem dryRun_failure_writes_log_cex :
    (processRows envEmptyColl [rowGood] true).2 =
      [failureLogLine 1 rowGood "User not found by email: a@b.c"] ∧
    (processRows envEmptyColl [rowGood] true).2 ≠ [] :=
  ⟨rfl, by decide⟩

/-- C1 (amended): for every run with the --dry-run flag the booking-creation call is never invoked for any row, whatever the remote service answers and wherever a row fails; the failure log, however, receives exactly one line per failed row, in dry-run mode as in live mode. -/
theorem dryRun_no_booking_and_log_per_failure :
    (∀ (env : Env) (row : CsvRow),
      containsPost (processRow env row { dryRun := true }).2 = false) ∧
    (∀ (env : Env) (rows : List CsvRow) (dryRun : Bool),
      (processRows env rows dryRun).2.length =
        ((processRows env rows dryRun).1.filter RowOutcome.isErr).length) :=
  ⟨containsPost_processRow_dryRun, fun env rows d => logLines_count_err env d rows 0⟩

/-- C2 counterexample: two concurrent callers of getToken with an empty cache, interleaved so that both pass the cache check before either exchange completes, issue two client-credentials token exchanges — getToken shares no in-flight refresh, so the claim that at most one exchange is issued is false. -/
theorem getToken_duplicate_exchange_cex :
    (runToken 2 [0, 1]).exchangeCount = 2 ∧
    ¬ (∀ sched : List Nat, (runToken 2 sched).exchangeCount ≤ 1) :=
  ⟨by decide, fun h => absurd (h [0, 1]) (by decide)⟩

/-- C2 (amended): each concurrent caller of getToken issues at most one token exchange, so k concurrent callers issue at most k exchanges (two callers at most two, not at most one); and a caller whose cache check happens after another caller completed the refresh reuses the cached token, issuing no further exchange, as the single-exchange run of the schedule where the second caller checks after the first completes shows. -/
theorem getToken_exchange_bounded (k : Nat) :
    (∀ sched : List Nat, (runToken k sched).exchangeCount ≤ k) ∧
    (runToken 2 [0, 0, 1]).exchangeCount = 1 := by
  constructor
  · intro sched
    have h0 : (tokenInit k).exchangeCount + startCount (tokenInit k).pcs ≤ k := by
      simp [tokenInit, startCount_replicate_start]
    have := runToken_foldl_inv k sched (tokenInit k) h0
    simp only [runToken]
    omega
  · decide

/-- C3: a row that is missing a required column, or whose date does not match the YYYY-MM-DD pattern exactly, makes processRow fail with an empty network trace (zero network calls), and in the malformed-date case the error message names the offending date value. -/
theorem processRow_invalid_precheck_no_network (env : Env) (row : CsvRow) (o : RowOptions)
    (h : requiredColumnsPresent row = false ∨ datePattern (jsTrim (jsStringO row.date)).data = false) :
    (processRow env row o).2 = [] ∧
    ∃ msg, (processRow env row o).1 = Except.error msg ∧
      (requiredColumnsPresent row = true → ∃ pre, msg = pre ++ jsStringO row.date) := by
  rcases hreq : requiredColumnsPresent row with _ | _
  · have heq : processRow env row o = (.error missingColumnsMsg, []) := by
      unfold processRow; simp [hreq]
    rw [heq]
    exact ⟨rfl, missingColumnsMsg, rfl, fun hc => by simp_all⟩
  · have hdate : datePattern (jsTrim (jsStringO row.date)).data = false := by
      rcases h with h | h
      · rw [hreq] at h; exact absurd h (by decide)
      · exact h
    have heq : processRow env row o = (.error (invalidDateMsg row.date), []) := by
      unfold processRow; simp [hreq, hdate]
    rw [heq]
    exact ⟨rfl, invalidDateMsg row.date, rfl,
      fun _ => ⟨"Invalid date format for row. Expected YYYY-MM-DD, got: ", rfl⟩⟩

/-- Witness for C3 at the concrete row with date 2025-8-1. -/
theorem processRow_invalid_precheck_no_network_witness :
    (requiredColumnsPresent rowBadDate = false ∨
      datePattern (jsTrim (jsStringO rowBadDate.date)).data = false) ∧
    ((processRow envOffline rowBadDate { dryRun := false }).2 = [] ∧
      ∃ msg, (processRow envOffline rowBadDate { dryRun := false }).1 = Except.error msg ∧
        (requiredColumnsPresent rowBadDate = true → ∃ pre, msg = pre ++ jsStringO rowBadDate.date)) :=
  ⟨by decide,
   processRow_invalid_precheck_no_network envOffline rowBadDate { dryRun := false } (by decide)⟩

/-- C4 counterexample: a row whose email, building name, floor name, space name and date are present and non-empty but whose Space Type cell is empty is rejected by row validation with the missing-columns error — the claim says the Space Type column is optional and processing should proceed to resolution. -/
theorem processRow_empty_space_type_rejected_cex :
    (processRow envOffline rowNoType { dryRun := true }).1 = Except.error missingColumnsMsg ∧
    (processRow envOffline rowNoType { dryRun := true }).2 = [] :=
  ⟨rfl, rfl⟩

/-- C4 (amended): Space Type is a required column of this pipeline: a row whose Space Type cell is absent or empty is rejected by processRow validation with the missing-columns error before any network call; only Start Time and End Time are optional. -/
theorem processRow_space_type_required (env : Env) (row : CsvRow) (o : RowOptions)
    (h : truthyOpt row.spaceType = false) :
    processRow env row o = (Except.error missingColumnsMsg, []) := by
  have hreq : requiredColumnsPresent row = false := by
    simp [requiredColumnsPresent, h]
  unfold processRow
  simp [hreq]

/-- Witness for C4 (amended) at the concrete empty-Space-Type row. -/
theorem processRow_space_type_required_witness :
    truthyOpt rowNoType.spaceType = false ∧
    processRow envOffline rowNoType { dryRun := false } = (Except.error missingColumnsMsg, []) :=
  ⟨by decide, processRow_space_type_required envOffline rowNoType { dryRun := false } (by decide)⟩

/-- C5: a start or end time string failing the H:mm / HH:mm pattern (absent, empty, 9am and so on) is replaced by the default 09:00 or 17:00 rather than rejected, and a value passing the pattern is the one used (trimmed, as the code uses it). -/
theorem time_defaults_on_invalid_pattern (tz dateStr : String) (s e : Option String) :
    (isValidTimeString s = false →
      computeUtcRangeForDateAndTimes tz dateStr s e =
        computeUtcRangeForDateAndTimes tz dateStr (some "09:00") e) ∧
    (isValidTimeString e = false →
      computeUtcRangeForDateAndTimes tz dateStr s e =
        computeUtcRangeForDateAndTimes tz dateStr s (some "17:00")) ∧
    (isValidTimeString s = true →
      (computeUtcRangeForDateAndTimes tz dateStr s e).startUtc =
        localToUtcIso tz (jsTrim dateStr) (jsTrim (jsStringO s))) ∧
    (isValidTimeString e = true →
      (computeUtcRangeForDateAndTimes tz dateStr s e).endUtc =
        localToUtcIso tz (jsTrim dateStr) (jsTrim (jsStringO e))) := by
  have h9 : isValidTimeString (some "09:00") = true := by decide
  have h17 : isValidTimeString (some "17:00") = true := by decide
  have t9 : jsTrim "09:00" = "09:00" := by decide
  have t17 : jsTrim "17:00" = "17:00" := by decide
  refine ⟨fun h => ?_, fun h => ?_, fun h => ?_, fun h => ?_⟩ <;>
    simp [computeUtcRangeForDateAndTimes, h, jsStringO, h9, h17, t9, t17]

/-- Witness for C5: 9am falls back to the 09:00 default; 8:30 is used as given. -/
theorem time_defaults_on_invalid_pattern_witness :
    isValidTimeString (some "9am") = false ∧
    (computeUtcRangeForDateAndTimes "America/New_York" "2025-08-15" (some "9am") (some "") =
      computeUtcRangeForDateAndTimes "America/New_York" "2025-08-15" (some "09:00") (some "")) ∧
    isValidTimeString (some "8:30") = true ∧
    (computeUtcRangeForDateAndTimes "America/New_York" "2025-08-15" (some "8:30") (some "x")).startUtc =
      localToUtcIso "America/New_York" (jsTrim "2025-08-15") (jsTrim (jsStringO (some "8:30"))) :=
  ⟨by decide,
   (time_defaults_on_invalid_pattern "America/New_York" "2025-08-15" (some "9am") (some "")).1 (by decide),
   by decide,
   (time_defaults_on_invalid_pattern "America/New_York" "2025-08-15" (some "8:30") (some "x")).2.2.1 (by decide)⟩

/-- C6: for building timezone America/New_York, date 2025-08-15, start 09:00 and end 17:00 the computed UTC window is 2025-08-15T13:00:00.000Z to 2025-08-15T21:00:00.000Z (EDT, UTC-4). -/
theorem utc_range_new_york_aug15 :
    computeUtcRangeForDateAndTimes "America/New_York" "2025-08-15" (some "09:00") (some "17:00") =
      { startUtc := "2025-08-15T13:00:00.000Z"
        endUtc := "2025-08-15T21:00:00.000Z"
        date := "2025-08-15" } := by
  decide

/-- C7: createBooking first posts the flat payload shape; a success returns its response and the secondary shape is never tried; on rejection the relation-reference shape is posted; when both fail, the error raised is exactly the second attempt response error, the first error not being reported (the result does not depend on it). -/
theorem createBooking_shape_fallback_last_error (env : Env) (p : BookingPayload) :
    createBooking env p =
      match env.call (.postBooking (primaryBody p)) with
      | .ok r => (Except.ok r, [.postBooking (primaryBody p)])
      | .error _ =>
        match env.call (.postBooking (secondaryBody p)) with
        | .ok r =>
          (Except.ok r, [.postBooking (primaryBody p), .postBooking (secondaryBody p)])
        | .error e2 =>
          (Except.error e2, [.postBooking (primaryBody p), .postBooking (secondaryBody p)]) := by
  unfold createBooking bodyCandidates
  cases h1 : env.call (.postBooking (primaryBody p)) with
  | ok r => simp [tryBookingBodies, h1]
  | error e1 =>
    cases h2 : env.call (.postBooking (secondaryBody p)) with
    | ok r => simp [tryBookingBodies, h1, h2]
    | error e2 => simp [tryBookingBodies, h1, h2]

/-- C8: floor and space listings attempt the query-parameter shape first (it heads the trace); when it succeeds the nested shape is never tried; an error is raised only when both shapes have failed, and its message is the nested-shape error prefixed with text embedding the failing parent identifier. -/
theorem listing_fallback_both_shapes (env : Env) (buildingId floorId : Js) :
    ((findFloorsForBuilding env buildingId).2.head? = some (.getFloorsQuery buildingId)) ∧
    (∀ d, env.call (.getFloorsQuery buildingId) = .ok d →
      findFloorsForBuilding env buildingId = (.ok (toHydraMembers d), [.getFloorsQuery buildingId])) ∧
    (∀ e, (findFloorsForBuilding env buildingId).1 = .error e →
      (∃ e1, env.call (.getFloorsQuery buildingId) = .error e1) ∧
      ∃ e2, env.call (.getFloorsNested buildingId) = .error e2 ∧
        e = "Unable to list floors for building " ++ jsToString buildingId ++ ": " ++ e2) ∧
    ((findSpacesForFloor env floorId).2.head? = some (.getSpacesQuery floorId)) ∧
    (∀ d, env.call (.getSpacesQuery floorId) = .ok d →
      findSpacesForFloor env floorId = (.ok (toHydraMembers d), [.getSpacesQuery floorId])) ∧
    (∀ e, (findSpacesForFloor env floorId).1 = .error e →
      (∃ e1, env.call (.getSpacesQuery floorId) = .error e1) ∧
      ∃ e2, env.call (.getSpacesNested floorId) = .error e2 ∧
        e = "Unable to list spaces for floor " ++ jsToString floorId ++ ": " ++ e2) := by
  unfold findFloorsForBuilding findSpacesForFloor
  cases hf1 : env.call (.getFloorsQuery buildingId) with
  | ok d =>
    cases hs1 : env.call (.getSpacesQuery floorId) with
    | ok d2 => exact ⟨rfl, fun _ h => by simp_all, fun e h => by simp_all, rfl,
        fun _ h => by simp_all, fun e h => by simp_all⟩
    | error es1 =>
      cases hs2 : env.call (.getSpacesNested floorId) with
      | ok d2 => exact ⟨rfl, fun _ h => by simp_all, fun e h => by simp_all, rfl,
          fun _ h => by simp_all, fun e h => by simp_all⟩
      | error es2 => exact ⟨rfl, fun _ h => by simp_all, fun e h => by simp_all, rfl,
          fun _ h => by simp_all, fun e h => ⟨⟨es1, rfl⟩, es2, rfl, by simp_all⟩⟩
  | error ef1 =>
    cases hf2 : env.call (.getFloorsNested buildingId) with
    | ok d =>
      cases hs1 : env.call (.getSpacesQuery floorId) with
      | ok d2 => exact ⟨rfl, fun _ h => by simp_all, fun e h => by simp_all, rfl,
          fun _ h => by simp_all, fun e h => by simp_all⟩
      | error es1 =>
        cases hs2 : env.call (.getSpacesNested floorId) with
        | ok d2 => exact ⟨rfl, fun _ h => by simp_all, fun e h => by simp_all, rfl,
            fun _ h => by simp_all, fun e h => by simp_all⟩
        | error es2 => exact ⟨rfl, fun _ h => by simp_all, fun e h => by simp_all, rfl,
            fun _ h => by simp_all, fun e h => ⟨⟨es1, rfl⟩, es2, rfl, by simp_all⟩⟩
    | error ef2 =>
      cases hs1 : env.call (.getSpacesQuery floorId) with
      | ok d2 => exact ⟨rfl, fun _ h => by simp_all, fun e h => ⟨⟨ef1, rfl⟩, ef2, rfl, by simp_all⟩, rfl,
          fun _ h => by simp_all, fun e h => by simp_all⟩
      | error es1 =>
        cases hs2 : env.call (.getSpacesNested floorId) with
        | ok d2 => exact ⟨rfl, fun _ h => by simp_all, fun e h => ⟨⟨ef1, rfl⟩, ef2, rfl, by simp_all⟩, rfl,
            fun _ h => by simp_all, fun e h => by simp_all⟩
        | error es2 => exact ⟨rfl, fun _ h => by simp_all, fun e h => ⟨⟨ef1, rfl⟩, ef2, rfl, by simp_all⟩, rfl,
            fun _ h => by simp_all, fun e h => ⟨⟨es1, rfl⟩, es2, rfl, by simp_all⟩⟩

/-- Witness for C8: both floor shapes fail for building B1 and the final message embeds B1; the spaces query shape succeeds for floor F1 with a single call. -/
theorem listing_fallback_both_shapes_witness :
    ((findFloorsForBuilding envMixed (Js.str "B1")).2.head? =
      some (.getFloorsQuery (Js.str "B1"))) ∧
    ((∃ e1, envMixed.call (.getFloorsQuery (Js.str "B1")) = .error e1) ∧
      ∃ e2, envMixed.call (.getFloorsNested (Js.str "B1")) = .error e2 ∧
        "Unable to list floors for building B1: HTTP 404: not found" =
          "Unable to list floors for building " ++ jsToString (Js.str "B1") ++ ": " ++ e2) ∧
    (findSpacesForFloor envMixed (Js.str "F1") =
      (.ok (toHydraMembers (Js.arr [])), [.getSpacesQuery (Js.str "F1")])) :=
  ⟨(listing_fallback_both_shapes envMixed (Js.str "B1") (Js.str "F1")).1,
   (listing_fallback_both_shapes envMixed (Js.str "B1") (Js.str "F1")).2.2.1 _ (by rfl),
   (listing_fallback_both_shapes envMixed (Js.str "B1") (Js.str "F1")).2.2.2.2.1 _ (by rfl)⟩

/-- C9: the effective worker pool size is at least 1 for every --concurrency value (non-numeric text and values below 1 included), and under any schedule of any pool with at least one worker that has run to completion, the outcomes are exactly the rows 0..n-1, each processed and reported exactly once. -/
theorem concurrency_floor_and_rows_exactly_once :
    (∀ arg : Option String, 1 ≤ effectiveConcurrency arg) ∧
    (∀ (k n : Nat) (acts : List PoolAct), 1 ≤ k →
      allWorkersDone k (runPool k n acts) = true →
      (runPool k n acts).outcomes.Perm (List.range n) ∧
      ∀ i, i < n → (runPool k n acts).outcomes.count i = 1) := by
  constructor
  · intro arg
    unfold effectiveConcurrency
    exact le_max_left 1 _
  · intro k n acts hk hdone
    obtain ⟨h1, h2, h3, h4⟩ := runPool_inv k n acts
    have hfin : (runPool k n acts).finished = k := by
      simpa [allWorkersDone] using hdone
    unfold poolWorkers at h3
    have hinf : (runPool k n acts).inflight = [] := by
      have : (runPool k n acts).inflight.length = 0 := by omega
      exact List.length_eq_zero.mp this
    have hn : n ≤ (runPool k n acts).index := h4 (by omega)
    have hidx : (runPool k n acts).index = n := le_antisymm h1 hn
    rw [hinf, List.append_nil, hidx] at h2
    refine ⟨h2, fun i hi => ?_⟩
    rw [h2.count_eq]
    exact List.count_eq_one_of_mem (List.nodup_range n) (List.mem_range.mpr hi)

/-- Witness for C9: the floor at a non-numeric value, and a completed two-worker schedule over three rows whose outcomes are a permutation of the rows with row 1 reported exactly once. -/
theorem concurrency_floor_and_rows_exactly_once_witness :
    1 ≤ effectiveConcurrency (some "abc") ∧
    allWorkersDone 2 (runPool 2 3 poolSchedDemo) = true ∧
    (runPool 2 3 poolSchedDemo).outcomes.Perm (List.range 3) ∧
    (runPool 2 3 poolSchedDemo).outcomes.count 1 = 1 :=
  ⟨concurrency_floor_and_rows_exactly_once.1 (some "abc"),
   by decide,
   (concurrency_floor_and_rows_exactly_once.2 2 3 poolSchedDemo (by decide) (by decide)).1,
   (concurrency_floor_and_rows_exactly_once.2 2 3 poolSchedDemo (by decide) (by decide)).2 1
     (by decide)⟩

/-- C10 counterexample: toHydraMembers returns a truthy non-array hydra:member field as-is — here the string x — so it does not return an array for every response body, contrary to the claim. -/
theorem toHydraMembers_nonarray_member_cex :
    (toHydraMembers (Js.obj [("hydra:member", Js.str "x")])).isArr = false ∧
    toHydraMembers (Js.obj [("hydra:member", Js.str "x")]) = Js.str "x" :=
  ⟨rfl, rfl⟩

/-- C10 (amended): toHydraMembers is total and never throws; it returns an array for every hydra-well-shaped body (null or falsy bodies, plain arrays, bodies whose truthy hydra:member or items fields hold arrays), and for every truthy non-array body with no truthy member-list field it returns the empty array, which the resolvers then surface as an entity-not-found error; but a truthy non-array member-list field is passed through as-is. -/
theorem toHydraMembers_total_shape (data : Js) :
    (hydraWellShaped data = true → (toHydraMembers data).isArr = true) ∧
    (truthy data = true → data.isArr = false →
      truthy (getField data "hydra:member") = false →
      truthy (getField data "items") = false →
      toHydraMembers data = Js.arr []) := by
  constructor
  · intro h
    unfold hydraWellShaped at h
    unfold toHydraMembers
    split
    · rfl
    · split
      · next h2 => exact h2
      · split
        · next h3 =>
          simp only [Bool.and_eq_true, Bool.or_eq_true, Bool.not_eq_true'] at h
          rcases h.1 with h4 | h4
          · rw [h3] at h4; exact absurd h4 (by decide)
          · exact h4
        · split
          · next h4 =>
            simp only [Bool.and_eq_true, Bool.or_eq_true, Bool.not_eq_true'] at h
            rcases h.2 with h5 | h5
            · rw [h4] at h5; exact absurd h5 (by decide)
            · exact h5
          · rfl
  · intro h1 h2 h3 h4
    unfold toHydraMembers
    rw [h1, h2, h3, h4]
    simp

/-- Witness for C10 (amended): an items collection yields an array; an unrecognized object yields the empty array. -/
theorem toHydraMembers_total_shape_witness :
    hydraWellShaped (Js.obj [("items", Js.arr [Js.num 1])]) = true ∧
    (toHydraMembers (Js.obj [("items", Js.arr [Js.num 1])])).isArr = true ∧
    toHydraMembers (Js.obj [("foo", Js.num 1)]) = Js.arr [] :=
  ⟨by decide, (toHydraMembers_total_shape _).1 (by decide),
   (toHydraMembers_total_shape _).2 (by decide) (by decide) (by decide) (by decide)⟩
